import Mathlib

/-!
# Verification of the criterion-compare benchmark-comparison core

Shallow embedding of `src/results.ts` (the canonical iteration of the
parser / comparator / renderer, per the spec's §9) together with a model of
the JavaScript runtime facilities it relies on (`JSON.parse`, property
access, `??`, `Map`, `Set`, number formatting).

Modelling conventions:
* JavaScript numbers are modelled as exact rationals `ℚ`.  IEEE-754 rounding
  is not modelled; none of the verified properties depend on it.
* A JavaScript value that is either `undefined` or not a finite number is
  modelled as `none` in `Option`-typed positions; `some j` is a defined
  JSON value `j`.
* Values stored by the constructors are kept as raw JSON values
  (`Option Json`), exactly as the dynamically-typed source stores them.
* The arithmetic helpers (`jsAdd`, `jsLt`, ...) give the JavaScript result
  on numeric operands; non-numeric operands (impossible for critcmp data,
  and excluded by the hypotheses of every theorem that touches arithmetic)
  produce the not-a-finite-number marker `none`, and comparisons on it are
  `false` (as for `NaN`).  JavaScript string/boolean/null coercions inside
  arithmetic are not modelled.
* `core.error` / `core.warning` / `console.error` calls are modelled as a
  `List LogEvent` result component, one structured event per call site.
-/

namespace CriterionCompare

/-- A JSON value, the result of `JSON.parse`.  Objects keep their fields in
JavaScript property order (first occurrence position, last occurrence value,
as produced by `JSON.parse` on duplicate keys). -/
inductive Json where
  | null : Json
  | bool (b : Bool) : Json
  | num (q : ℚ) : Json
  | str (s : String) : Json
  | arr (elems : List Json) : Json
  | obj (fields : List (String × Json)) : Json

/-- A JavaScript value slot: `none` is `undefined`, `some j` is the JSON
value `j`. -/
abbrev JsVal := Option Json

/-- Property access `j.k` on a non-null JSON value: field lookup on objects,
`undefined` on every other kind (numbers, strings, booleans, arrays have none
of the property names this program reads).  Access on `null` throws in
JavaScript and is handled explicitly at each call site. -/
def getField (j : Json) (k : String) : Option Json :=
  match j with
  | .obj fs => (fs.find? (fun p => p.1 = k)).map (fun p => p.2)
  | _ => none

/-- The `??` (nullish-coalescing) operator: the right operand is taken
exactly when the left one is `undefined` or `null`. -/
def jsCoalesce (a : Option Json) (b : Json) : Json :=
  match a with
  | none => b
  | some .null => b
  | some v => v

/-- `??` in a position whose default may itself be `undefined`
(e.g. `CI.lower_bound ?? this.pointEstimate`). -/
def jsCoalesceV (a : Option Json) (b : JsVal) : JsVal :=
  match a with
  | none => b
  | some .null => b
  | some v => some v

/-- The finite number held by a JavaScript value, if any. -/
def jsNum? (v : JsVal) : Option ℚ :=
  match v with
  | some (.num q) => some q
  | _ => none

/-- `typeof v === 'number'`. -/
def isNumV (v : JsVal) : Bool :=
  (jsNum? v).isSome

/-- JavaScript `+` on two values, at number granularity: the sum for two
finite numbers, the not-a-finite-number marker otherwise. -/
def jsAdd (a b : JsVal) : JsVal :=
  match jsNum? a, jsNum? b with
  | some x, some y => some (.num (x + y))
  | _, _ => none

/-- JavaScript `-` on two values (see `jsAdd`). -/
def jsSub (a b : JsVal) : JsVal :=
  match jsNum? a, jsNum? b with
  | some x, some y => some (.num (x - y))
  | _, _ => none

/-- JavaScript `*` on two values (see `jsAdd`). -/
def jsMul (a b : JsVal) : JsVal :=
  match jsNum? a, jsNum? b with
  | some x, some y => some (.num (x * y))
  | _, _ => none

/-- JavaScript `/` on two values.  Division by zero produces a value that is
not a finite number (`Infinity`, `-Infinity` or `NaN`), modelled by the same
`none` marker. -/
def jsDiv (a b : JsVal) : JsVal :=
  match jsNum? a, jsNum? b with
  | some x, some y => if y = 0 then none else some (.num (x / y))
  | _, _ => none

/-- JavaScript `<` at number granularity: `false` whenever an operand is not
a finite number (as for `NaN`; `Infinity` comparisons, which can be `true`
in JavaScript, never reach a comparison in the verified properties). -/
def jsLt (a b : JsVal) : Bool :=
  match jsNum? a, jsNum? b with
  | some x, some y => decide (x < y)
  | _, _ => false

/-- JavaScript `>` (see `jsLt`). -/
def jsGt (a b : JsVal) : Bool :=
  match jsNum? a, jsNum? b with
  | some x, some y => decide (x > y)
  | _, _ => false

/-- JavaScript `v < q` against a numeric literal (see `jsLt`). -/
def jsLtQ (v : JsVal) (q : ℚ) : Bool :=
  match jsNum? v with
  | some x => decide (x < q)
  | none => false

/-!
## A model of `JSON.parse`

A recursive-descent parser for JSON text (RFC 8259 grammar: whitespace,
`null`, booleans, numbers with optional sign / fraction / exponent and no
leading zeros, strings with escapes, arrays, objects).  Duplicate object
keys follow `JSON.parse`: position of the first occurrence, value of the
last.  Recursion is bounded by a fuel parameter that is strictly larger
than the number of recursive steps any input of the given length can take.
-/

/-- JSON insignificant whitespace. -/
def skipWs : List Char → List Char
  | [] => []
  | c :: cs => if c = ' ' ∨ c = '\n' ∨ c = '\t' ∨ c = '\r' then skipWs cs else c :: cs

/-- Value of a hexadecimal digit. -/
def hexVal (c : Char) : Option ℕ :=
  if c.isDigit then some (c.toNat - 48)
  else if 'a' ≤ c ∧ c ≤ 'f' then some (c.toNat - 87)
  else if 'A' ≤ c ∧ c ≤ 'F' then some (c.toNat - 55)
  else none

/-- Body of a JSON string after the opening quote, accumulating decoded
characters; stops at the closing quote.  Control characters must be
escaped; `\uXXXX` escapes decode to the corresponding code unit. -/
def parseStringBody : List Char → List Char → Option (String × List Char)
  | [], _ => none
  | c :: rest, acc =>
    if c = '"' then some (⟨acc⟩, rest)
    else if c = '\\' then
      match rest with
      | [] => none
      | e :: rest2 =>
        if e = '"' ∨ e = '\\' ∨ e = '/' then parseStringBody rest2 (acc ++ [e])
        else if e = 'b' then parseStringBody rest2 (acc ++ [Char.ofNat 8])
        else if e = 'f' then parseStringBody rest2 (acc ++ [Char.ofNat 12])
        else if e = 'n' then parseStringBody rest2 (acc ++ ['\n'])
        else if e = 'r' then parseStringBody rest2 (acc ++ ['\r'])
        else if e = 't' then parseStringBody rest2 (acc ++ ['\t'])
        else if e = 'u' then
          match rest2 with
          | h1 :: h2 :: h3 :: h4 :: rest3 =>
            match hexVal h1, hexVal h2, hexVal h3, hexVal h4 with
            | some a, some b, some c2, some d =>
                parseStringBody rest3 (acc ++ [Char.ofNat (((a * 16 + b) * 16 + c2) * 16 + d)])
            | _, _, _, _ => none
          | _ => none
        else none
    else if c.toNat < 32 then none
    else parseStringBody rest (acc ++ [c])

/-- Numeric value of a list of decimal digits. -/
def digitsToNat (ds : List Char) : ℕ :=
  ds.foldl (fun n c => 10 * n + (c.toNat - 48)) 0

/-- A JSON number: optional minus sign, integer part without leading zeros,
optional fraction, optional exponent; exact rational value. -/
def parseNumber (cs : List Char) : Option (ℚ × List Char) :=
  let (neg, cs1) : Bool × List Char :=
    match cs with
    | '-' :: rest => (true, rest)
    | _ => (false, cs)
  let (intDs, cs2) := cs1.span Char.isDigit
  if intDs = [] then none
  else if intDs.length > 1 ∧ intDs.headI = '0' then none
  else
    let contFrac : Option (ℕ × ℕ × List Char) :=
      match cs2 with
      | '.' :: rest =>
        let (ds, r) := rest.span Char.isDigit
        if ds = [] then none else some (digitsToNat ds, ds.length, r)
      | _ => some (0, 0, cs2)
    match contFrac with
    | none => none
    | some (fracVal, fracLen, cs3) =>
      let contExp : Option (ℤ × List Char) :=
        match cs3 with
        | e :: rest =>
          if e = 'e' ∨ e = 'E' then
            let (esign, rest2) : ℤ × List Char :=
              match rest with
              | '+' :: r => (1, r)
              | '-' :: r => (-1, r)
              | _ => (1, rest)
            let (eds, r2) := rest2.span Char.isDigit
            if eds = [] then none else some (esign * (digitsToNat eds : ℤ), r2)
          else some (0, cs3)
        | [] => some (0, [])
      match contExp with
      | none => none
      | some (expVal, cs4) =>
        let mantissa : ℚ := ((digitsToNat intDs * 10 ^ fracLen + fracVal : ℕ) : ℚ) / ((10 ^ fracLen : ℕ) : ℚ)
        let signed : ℚ := if neg then -mantissa else mantissa
        let scaled : ℚ :=
          if 0 ≤ expVal then signed * 10 ^ expVal.toNat else signed / 10 ^ (-expVal).toNat
        some (scaled, cs4)

/-- `JSON.parse` object-building step: duplicate keys keep the first
occurrence's position and the last occurrence's value. -/
def insertField (fs : List (String × Json)) (k : String) (v : Json) : List (String × Json) :=
  if fs.any (fun p => p.1 = k) then
    fs.map (fun p => if p.1 = k then (k, v) else p)
  else fs ++ [(k, v)]

mutual

/-- One JSON value, leading whitespace allowed. -/
def parseVal (fuel : ℕ) (cs : List Char) : Option (Json × List Char) :=
  match fuel with
  | 0 => none
  | fuel + 1 =>
    match skipWs cs with
    | [] => none
    | c :: rest =>
      if c = '{' then
        match skipWs rest with
        | '}' :: rest2 => some (.obj [], rest2)
        | _ => parseObjItems fuel rest []
      else if c = '[' then
        match skipWs rest with
        | ']' :: rest2 => some (.arr [], rest2)
        | _ => parseArrItems fuel rest []
      else if c = '"' then
        match parseStringBody rest [] with
        | some (s, rest2) => some (.str s, rest2)
        | none => none
      else if c = 't' then
        match rest with
        | 'r' :: 'u' :: 'e' :: rest2 => some (.bool true, rest2)
        | _ => none
      else if c = 'f' then
        match rest with
        | 'a' :: 'l' :: 's' :: 'e' :: rest2 => some (.bool false, rest2)
        | _ => none
      else if c = 'n' then
        match rest with
        | 'u' :: 'l' :: 'l' :: rest2 => some (.null, rest2)
        | _ => none
      else
        match parseNumber (c :: rest) with
        | some (q, rest2) => some (.num q, rest2)
        | none => none

/-- Comma-separated array elements up to the closing bracket. -/
def parseArrItems (fuel : ℕ) (cs : List Char) (acc : List Json) : Option (Json × List Char) :=
  match fuel with
  | 0 => none
  | fuel + 1 =>
    match parseVal fuel cs with
    | none => none
    | some (v, rest) =>
      match skipWs rest with
      | ',' :: rest2 => parseArrItems fuel rest2 (acc ++ [v])
      | ']' :: rest2 => some (.arr (acc ++ [v]), rest2)
      | _ => none

/-- Comma-separated `"key": value` members up to the closing brace. -/
def parseObjItems (fuel : ℕ) (cs : List Char) (acc : List (String × Json)) :
    Option (Json × List Char) :=
  match fuel with
  | 0 => none
  | fuel + 1 =>
    match skipWs cs with
    | '"' :: rest =>
      match parseStringBody rest [] with
      | none => none
      | some (k, rest2) =>
        match skipWs rest2 with
        | ':' :: rest3 =>
          match parseVal fuel rest3 with
          | none => none
          | some (v, rest4) =>
            match skipWs rest4 with
            | ',' :: rest5 => parseObjItems fuel rest5 (insertField acc k v)
            | '}' :: rest5 => some (.obj (insertField acc k v), rest5)
            | _ => none
        | _ => none
    | _ => none

end

/-- `JSON.parse` on a character list: one JSON value, with nothing but
whitespace after it.  The fuel bound exceeds the number of recursive steps
possible for the input length (every step consumes input). -/
def jsonParseChars (cs : List Char) : Option Json :=
  match parseVal (2 * cs.length + 4) cs with
  | some (j, rest) => if skipWs rest = [] then some j else none
  | none => none

/-- `JSON.parse` on a string: `none` models the thrown `SyntaxError`. -/
def jsonParse (s : String) : Option Json :=
  jsonParseChars s.data

/-!
## Renderer numeric helpers (`src/results.ts` lines 23-58)
-/

/-- `Number.prototype.toFixed(2)` on an exact rational: sign taken from the
argument, then the magnitude rounded to hundredths with ties away from zero,
exactly as in the ECMAScript algorithm (binary floating-point representation
artifacts are not modelled). -/
def toFixed2 (q : ℚ) : String :=
  let sign := if q < 0 then "-" else ""
  let n : ℕ := (⌊|q| * 100 + 1/2⌋).toNat
  let frac := n % 100
  sign ++ toString (n / 100) ++ "." ++
    (if frac < 10 then "0" ++ toString frac else toString frac)

/-- `displayUnits` (`src/results.ts` lines 28-38): the unit a number of
nanoseconds is displayed as. -/
def displayUnits (s : ℚ) : String :=
  if 0 < s ∧ s < 1000 then "ns"
  else if 1000 ≤ s ∧ s < 10 ^ 6 then "μs"
  else if 10 ^ 6 ≤ s ∧ s < 10 ^ 9 then "ms"
  else "s"

/-- `toDisplay` (`src/results.ts` lines 45-58): render `s` nanoseconds in a
unit produced by `displayUnits`; the `default: throw` branch is `none`. -/
def toDisplay (s : ℚ) (unit : String) : Option String :=
  if unit = "ns" then some (toFixed2 s)
  else if unit = "μs" then some (toFixed2 (s / 1000))
  else if unit = "ms" then some (toFixed2 (s / 10 ^ 6))
  else if unit = "s" then some (toFixed2 (s / 10 ^ 9))
  else none

/-!
## Diagnostics and errors

Every `core.error` / `core.warning` / `console.error` call site of
`src/results.ts` is one `LogEvent` constructor carrying the data
interpolated into its message; thrown exceptions are `ResultError`.
-/

/-- One emitted diagnostic. -/
inductive LogEvent where
  /-- `core.error("No 'point_estimate' found in JSON--has critcmp format changed?")` -/
  | noPointEstimate
  /-- `core.error("No 'standard_error' found in JSON--has critcmp format changed?")` -/
  | noStandardError
  /-- `core.warning("Found a value of \x7bpe\x7d±\x7bse\x7d. This value is highly suspicious!!")` -/
  | suspiciousValue (pe se : JsVal)
  /-- `core.error("Received a null/undef object for \x7bname\x7d")` -/
  | nullBenchmarkObject (name : String)
  /-- `core.error("Criterion estimates not found. Has data format changed?")` -/
  | estimatesNotFound
  /-- `core.error("\x7bField\x7d was not found in benchmark \x7bname\x7d: \x7brecord\x7d")`,
  with `field` one of `"mean"`, `"median"`, `"std_dev"`; the message
  interpolates the benchmark's name and record. -/
  | fieldNotFound (field name : String) (record : Json)
  /-- `console.error("No 'benchmarks' key found in JSON: has data format changed?")` -/
  | noBenchmarksKey
  /-- `core.error("Exception while parsing JSON results: \x7be\x7d")`, emitted by
  the `catch` block before the exception is rethrown. -/
  | parseException
  /-- `core.warning("Tried to compare names \x7bn1\x7d and \x7bn2\x7d.")` -/
  | nameMismatchWarning (n1 n2 : String)

/-- One thrown exception. -/
inductive ResultError where
  /-- The `SyntaxError` of a failed `JSON.parse`, rethrown by the `catch`
  (the spec's `MalformedInput`). -/
  | malformedInput
  /-- A `TypeError` (`Object.entries` of `undefined`/`null`, or property
  access on `null`), rethrown by the `catch`. -/
  | typeError
  /-- `Error('Benchmark data not found in benchmark object')` (the spec's
  `MissingRequiredField`). -/
  | benchmarkDataNotFound
  /-- `Error('Trying to compare benchmarks with different names')`. -/
  | nameMismatch
deriving DecidableEq

/-!
## Measurement model (`src/results.ts` lines 60-186)
-/

/-- `MeasurementStats` (lines 73-118): one statistical estimate.  Fields
hold the raw JavaScript values the constructor stores. -/
structure MeasurementStats where
  kind : String
  pointEstimate : JsVal
  standardError : JsVal
  lowerBound : JsVal
  upperBound : JsVal
  confidenceLevel : JsVal

/-- The `MeasurementStats` constructor (lines 82-117): reads
`point_estimate` and `standard_error` (diagnostics if non-numeric, never
fatal), warns on implausibly small values, and defaults the confidence
interval to a zero-width, zero-confidence one around the point estimate
when `confidence_interval` is absent or null. -/
def MeasurementStats.make (name : String) (body : Json) : List LogEvent × MeasurementStats :=
  let pe := getField body "point_estimate"
  let se := getField body "standard_error"
  let lg1 : List LogEvent := if isNumV pe then [] else [.noPointEstimate]
  let lg2 : List LogEvent := if isNumV se then [] else [.noStandardError]
  let lg3 : List LogEvent := if jsLtQ pe 1 || jsLtQ se 1 then [.suspiciousValue pe se] else []
  match getField body "confidence_interval" with
  | none => (lg1 ++ lg2 ++ lg3, ⟨name, pe, se, pe, pe, some (.num 0)⟩)
  | some .null => (lg1 ++ lg2 ++ lg3, ⟨name, pe, se, pe, pe, some (.num 0)⟩)
  | some ci =>
    (lg1 ++ lg2 ++ lg3,
     ⟨name, pe, se,
      jsCoalesceV (getField ci "lower_bound") pe,
      jsCoalesceV (getField ci "upper_bound") pe,
      jsCoalesceV (getField ci "confidence_level") (some (.num 0))⟩)

/-- `BenchmarkResult` (lines 124-186): one named benchmark's record. -/
structure BenchmarkResult where
  name : String
  baseline : Json
  mean : MeasurementStats
  median : MeasurementStats
  std_dev : MeasurementStats

/-- The `BenchmarkResult` constructor (lines 131-164).  A null record logs
and then raises a `TypeError` at the `benchmark_obj.baseline` access; a
missing `criterion_estimates_v1`, `mean`, `median` or `std_dev` logs and
throws `Error('Benchmark data not found in benchmark object')`. -/
def BenchmarkResult.make (name : String) (obj : Json) :
    List LogEvent × Except ResultError BenchmarkResult :=
  match obj with
  | .null => ([.nullBenchmarkObject name], .error .typeError)
  | _ =>
    let baseline := jsCoalesce (getField obj "baseline") (.str "unknown")
    match getField obj "criterion_estimates_v1" with
    | none => ([.estimatesNotFound], .error .benchmarkDataNotFound)
    | some .null => ([.estimatesNotFound], .error .benchmarkDataNotFound)
    | some est =>
      match getField est "mean" with
      | none => ([.fieldNotFound "mean" name obj], .error .benchmarkDataNotFound)
      | some .null => ([.fieldNotFound "mean" name obj], .error .benchmarkDataNotFound)
      | some meanJ =>
        let (lg1, meanS) := MeasurementStats.make "mean" meanJ
        match getField est "median" with
        | none => (lg1 ++ [.fieldNotFound "median" name obj], .error .benchmarkDataNotFound)
        | some .null => (lg1 ++ [.fieldNotFound "median" name obj], .error .benchmarkDataNotFound)
        | some medJ =>
          let (lg2, medS) := MeasurementStats.make "median" medJ
          match getField est "std_dev" with
          | none => (lg1 ++ lg2 ++ [.fieldNotFound "std_dev" name obj], .error .benchmarkDataNotFound)
          | some .null => (lg1 ++ lg2 ++ [.fieldNotFound "std_dev" name obj], .error .benchmarkDataNotFound)
          | some sdJ =>
            let (lg3, sdS) := MeasurementStats.make "std_dev" sdJ
            (lg1 ++ lg2 ++ lg3, .ok ⟨name, baseline, meanS, medS, sdS⟩)

/-- `BenchmarkResult.diffSignificant` (lines 167-185), called as
`base.diffSignificant(delta)`: a name mismatch logs a warning and reports
`false`; otherwise the asymmetric error-bar heuristic on the mean and
std_dev point estimates. -/
def diffSignificant (self other : BenchmarkResult) : List LogEvent × Bool :=
  if other.name ≠ self.name then
    ([.nameMismatchWarning other.name self.name], false)
  else
    let myVal := self.mean.pointEstimate
    let myErr := self.std_dev.pointEstimate
    let oVal := other.mean.pointEstimate
    let oErr := other.std_dev.pointEstimate
    ([],
     if jsLt myVal oVal then
       jsLt (jsAdd myVal myErr) oVal || jsGt (jsSub oVal oErr) myVal
     else
       jsGt (jsSub myVal myErr) oVal || jsLt (jsAdd oVal oErr) myVal)

/-- `BenchmarkComparison` (lines 189-194): a paired base/changed result. -/
structure BenchmarkComparison where
  name : String
  benchBase : BenchmarkResult
  benchDelta : BenchmarkResult
  isSignificant : Bool
  pctDiff : JsVal

/-- The field assignments of the `BenchmarkComparison` constructor
(lines 200-207), reached only when the names match. -/
def compOf (base delta : BenchmarkResult) : BenchmarkComparison :=
  { name := base.name
    benchBase := base
    benchDelta := delta
    isSignificant := (diffSignificant base delta).2
    pctDiff := jsDiv (jsMul (some (.num 100)) (jsSub delta.mean.pointEstimate base.mean.pointEstimate))
        base.mean.pointEstimate }

/-- The `BenchmarkComparison` constructor (lines 196-207): mismatched names
throw before anything is computed or logged. -/
def mkComparison (base delta : BenchmarkResult) :
    List LogEvent × Except ResultError BenchmarkComparison :=
  if base.name ≠ delta.name then ([], .error .nameMismatch)
  else ((diffSignificant base delta).1, .ok (compOf base delta))

/-!
## Report rendering (`src/results.ts` lines 60-66 and 209-284)
-/

/-- `ReportFields` (lines 61-66). -/
inductive ReportFields where
  | name
  | deltaRes
  | baseRes
  | pctDiff
deriving DecidableEq

/-- `displayUnits` applied to a stored JavaScript value: a value that is
not a finite number fails every range test and falls to `"s"`. -/
def displayUnitsV (v : JsVal) : String :=
  match jsNum? v with
  | some q => displayUnits q
  | none => "s"

/-- `toDisplay` applied to a stored JavaScript value: a known unit divides
and formats (`NaN` when the value is not a finite number), an unknown unit
throws. -/
def toDisplayV (v : JsVal) (unit : String) : Option String :=
  if unit = "ns" ∨ unit = "μs" ∨ unit = "ms" ∨ unit = "s" then
    match jsNum? v with
    | some q => toDisplay q unit
    | none => some "NaN"
  else none

/-- `Math.round(v).toString()` (line 242): round half toward positive
infinity. -/
def mathRoundStr (v : JsVal) : String :=
  match jsNum? v with
  | some q => toString ⌊q + 1 / 2⌋
  | none => "NaN"

/-- `BenchmarkComparison.getMarkdownElement` (lines 215-252); `none` is the
`default: throw` branch. -/
def getMarkdownElement (c : BenchmarkComparison) (ty : ReportFields) (addBold : Bool) :
    Option String :=
  let term? : Option String :=
    match ty with
    | .name => some c.benchBase.name
    | .deltaRes =>
      let unit := displayUnitsV c.benchDelta.mean.pointEstimate
      match toDisplayV c.benchDelta.mean.pointEstimate unit,
          toDisplayV c.benchDelta.std_dev.pointEstimate unit with
      | some a, some b => some (a ++ " ± " ++ b ++ " " ++ unit)
      | _, _ => none
    | .baseRes =>
      let unit := displayUnitsV c.benchBase.mean.pointEstimate
      match toDisplayV c.benchBase.mean.pointEstimate unit,
          toDisplayV c.benchBase.std_dev.pointEstimate unit with
      | some a, some b => some (a ++ " ± " ++ b ++ " " ++ unit)
      | _, _ => none
    | .pctDiff => some (mathRoundStr c.pctDiff)
  term?.map (fun term => if addBold then "**" ++ term ++ "**" else term)

/-- The bold-field selection prologue of
`BenchmarkComparison.generateMarkdownTableRow` (lines 264-272): with
bolding enabled, the changed-run field is chosen when `pctDiff > 100`,
otherwise the base field. -/
def boldChoice (useBold : Bool) (pctDiff : JsVal) : Option ReportFields :=
  if useBold then
    if jsGt pctDiff (some (.num 100)) then some .deltaRes else some .baseRes
  else none

/-- `BenchmarkComparison.generateMarkdownTableRow` (lines 260-284). -/
def generateMarkdownTableRow (c : BenchmarkComparison) (columnNames : List ReportFields)
    (useBold : Bool) : Option String :=
  let boldField := boldChoice useBold c.pctDiff
  columnNames.foldlM
    (fun output ty =>
      (getMarkdownElement c ty (boldField = some ty)).map
        (fun e => output ++ " " ++ e ++ " |"))
    "|"

/-!
## Result parsing (`src/results.ts` lines 292-310)
-/

/-- The `for (const [name, value] of Object.entries(...))` loop body of
`resultsFromJSONString`: construct each record in order, aborting on the
first thrown error (fail-fast), keeping the diagnostics emitted up to that
point. -/
def buildResults : List (String × Json) → List LogEvent × Except ResultError (List BenchmarkResult)
  | [] => ([], .ok [])
  | (n, v) :: rest =>
    match BenchmarkResult.make n v with
    | (lg, .error e) => (lg, .error e)
    | (lg, .ok br) =>
      match buildResults rest with
      | (lg2, .error e) => (lg ++ lg2, .error e)
      | (lg2, .ok brs) => (lg ++ lg2, .ok (br :: brs))

/-- `Object.entries` on a non-null value: object fields (already
deduplicated by the parser), indexed array elements, indexed string
characters, nothing for numbers and booleans. -/
def jsEntries (j : Json) : List (String × Json) :=
  match j with
  | .obj fs => fs
  | .arr xs => (xs.enum.map fun p => (toString p.1, p.2))
  | .str s => (s.data.enum.map fun p => (toString p.1, Json.str ⟨[p.2]⟩))
  | _ => []

/-- `resultsFromJSONString` (lines 292-310): `JSON.parse`, a non-fatal
diagnostic when the `benchmarks` key is nullish (followed by the
`TypeError` that `Object.entries` then throws), then one `BenchmarkResult`
per entry; every exception is logged by the `catch` block and rethrown. -/
def resultsFromJSONString (s : String) :
    List LogEvent × Except ResultError (List BenchmarkResult) :=
  match jsonParse s with
  | none => ([.parseException], .error .malformedInput)
  | some .null => ([.parseException], .error .typeError)
  | some top =>
    match getField top "benchmarks" with
    | none => ([.noBenchmarksKey, .parseException], .error .typeError)
    | some .null => ([.noBenchmarksKey, .parseException], .error .typeError)
    | some bv =>
      match buildResults (jsEntries bv) with
      | (lgs, .ok rs) => (lgs, .ok rs)
      | (lgs, .error e) => (lgs ++ [.parseException], .error e)

/-!
## Pairing (`src/results.ts` lines 322-356)

JavaScript `Map` is modelled as an association list with replace-on-`set`
semantics, `Set` as a duplicate-free list in insertion order.
-/

/-- `Map.get`. -/
def lookupA (m : List (String × BenchmarkResult)) (k : String) : Option BenchmarkResult :=
  (m.find? (fun p => p.1 = k)).map (fun p => p.2)

/-- `Map.set`: replace in place, or append. -/
def mapSet (m : List (String × BenchmarkResult)) (k : String) (v : BenchmarkResult) :
    List (String × BenchmarkResult) :=
  if m.any (fun p => p.1 = k) then
    m.map (fun p => if p.1 = k then (k, v) else p)
  else m ++ [(k, v)]

/-- `Set.add`. -/
def setAdd (l : List String) (s : String) : List String :=
  if s ∈ l then l else l ++ [s]

/-- The dictionary built by `results.forEach(x => dict.set(x.name, x))`. -/
def dictOf (rs : List BenchmarkResult) : List (String × BenchmarkResult) :=
  rs.foldl (fun m x => mapSet m x.name x) []

/-- `allTestNames`: every name of either run, in insertion order. -/
def namesOf (baseResults deltaResults : List BenchmarkResult) : List String :=
  deltaResults.foldl (fun acc x => setAdd acc x.name)
    (baseResults.foldl (fun acc x => setAdd acc x.name) [])

/-- The record a JavaScript `Map` keyed by name holds after inserting a
run's results in order: the last result bearing the name. -/
def lastNamed (rs : List BenchmarkResult) (n : String) : Option BenchmarkResult :=
  rs.foldl (fun acc x => if x.name = n then some x else acc) none

/-- The `for (let name of allTestNames)` loop of `processResults`
(lines 342-354): compare names present in both dictionaries (a thrown
error aborts the loop), collect the others into the two orphan sets. -/
def pairLoop (bd dd : List (String × BenchmarkResult)) :
    List String → List BenchmarkComparison → List String → List String →
    List LogEvent × Except ResultError (List BenchmarkComparison × List String × List String)
  | [], comps, bO, dO => ([], .ok (comps, bO, dO))
  | n :: rest, comps, bO, dO =>
    match lookupA bd n, lookupA dd n with
    | some b, some d =>
      match mkComparison b d with
      | (lg, .error e) => (lg, .error e)
      | (lg, .ok c) =>
        match pairLoop bd dd rest (comps ++ [c]) bO dO with
        | (lg2, r2) => (lg ++ lg2, r2)
    | none, _ => pairLoop bd dd rest comps bO (setAdd dO n)
    | some _, none => pairLoop bd dd rest comps (setAdd bO n) dO

/-- `processResults` (lines 322-356): build both name dictionaries and the
union of names, then pair them off. -/
def processResults (baseResults deltaResults : List BenchmarkResult) :
    List LogEvent × Except ResultError (List BenchmarkComparison × List String × List String) :=
  pairLoop (dictOf baseResults) (dictOf deltaResults)
    (namesOf baseResults deltaResults) [] [] []

/-!
## Spec-side definitions

Definitions below follow the specification's words, for comparison against
the source-derived definitions above.
-/

/-- The significance heuristic exactly as §4.3 of the spec words it, over
the base and changed mean (`mBase`, `mDelta`) and std_dev (`eBase`,
`eDelta`) point estimates. -/
def specSignificant (mBase eBase mDelta eDelta : ℚ) : Prop :=
  if mDelta < mBase then
    mDelta + eDelta < mBase ∨ mBase - eBase > mDelta
  else
    mDelta - eDelta > mBase ∨ mBase + eBase < mDelta

/-- The divisor §4.4 of the spec assigns to each display unit. -/
def specDivisor (unit : String) : ℚ :=
  if unit = "ns" then 1
  else if unit = "μs" then 1000
  else if unit = "ms" then 10 ^ 6
  else 10 ^ 9

/-- The unit selection of the claim, which asks for nanoseconds whenever
`s < 1000`, and of the amended claim, which asks for them only when
`0 < s < 1000` (nonpositive durations fall through to seconds). -/
def specUnits (nsForAllSmall : Bool) (s : ℚ) : String :=
  if (if nsForAllSmall then s < 1000 else 0 < s ∧ s < 1000) then "ns"
  else if 1000 ≤ s ∧ s < 10 ^ 6 then "μs"
  else if 10 ^ 6 ≤ s ∧ s < 10 ^ 9 then "ms"
  else "s"

/-- Split a character stream at newlines. -/
def splitLines : List Char → List (List Char)
  | [] => [[]]
  | c :: rest =>
    if c = '\n' then [] :: splitLines rest
    else
      match splitLines rest with
      | l :: ls => (c :: l) :: ls
      | [] => [[c]]

/-- One record yielded by the two-wire-shape run parser: either a parsed
`BenchmarkResult` from the exported-comparison shape (A), or one
completed-benchmark message object, keyed by its `id`, from the
newline-delimited shape (B). -/
inductive RunRecord where
  | exported (r : BenchmarkResult)
  | message (id : String) (msg : Json)

/-- Modelled from the spec: the newline-delimited leg of the run parser.
`src/main.ts` imports `genBenchmarkResultTable` from `./results` and feeds
it the stdout of `cargo criterion --message-format json` (a shape-B
newline-delimited stream), but no definition of that function exists in
the source snapshot; this leg follows §4.2/§6 of the spec.  Each non-blank
line must be a JSON object; objects whose `reason` field is the
completed-benchmark discriminant `"benchmark-complete"` are yielded keyed
by their `id`, objects with any other discriminant (or none) are skipped
without error. -/
def parseRunB : List (List Char) → List LogEvent × Except ResultError (List RunRecord)
  | [] => ([], .ok [])
  | line :: rest =>
    if skipWs line = [] then parseRunB rest
    else
      match jsonParseChars line with
      | none => ([.parseException], .error .malformedInput)
      | some obj =>
        match getField obj "reason" with
        | some (.str r) =>
          if r = "benchmark-complete" then
            match getField obj "id" with
            | some (.str i) =>
              match parseRunB rest with
              | (lgs, res) => (lgs, res.map (fun l => RunRecord.message i obj :: l))
            | _ => ([], .error .benchmarkDataNotFound)
          else parseRunB rest
        | _ => parseRunB rest

/-- Modelled from the spec: the two-wire-shape run parser (`parseRun` of
§4.2; the missing `genBenchmarkResultTable` that `src/main.ts` calls).
Auto-detection by top-level structure: text that parses as one JSON
document with a `benchmarks` key is the exported-comparison shape A and is
handled by the source-derived `resultsFromJSONString`; anything else is
treated as the newline-delimited shape B. -/
def parseRun (s : String) : List LogEvent × Except ResultError (List RunRecord) :=
  match jsonParse s with
  | some top =>
    if (getField top "benchmarks").isSome then
      match resultsFromJSONString s with
      | (lgs, res) => (lgs, res.map (fun rs => rs.map RunRecord.exported))
    else parseRunB (splitLines s.data)
  | none => parseRunB (splitLines s.data)

/-!
## Concrete records used by witnesses and counterexamples
-/

/-- A benchmark record with the given numeric mean and std_dev point
estimates (standard errors 1, zero-width confidence intervals). -/
def sampleResult (name : String) (mean sd : ℚ) : BenchmarkResult :=
  { name := name
    baseline := .str "unknown"
    mean := ⟨"mean", some (.num mean), some (.num 1), some (.num mean), some (.num mean), some (.num 0)⟩
    median := ⟨"median", some (.num mean), some (.num 1), some (.num mean), some (.num mean), some (.num 0)⟩
    std_dev := ⟨"std_dev", some (.num sd), some (.num 1), some (.num sd), some (.num sd), some (.num 0)⟩ }

/-!
## Claim C5 — display-unit selection and conversion
-/

/-- The claim's unit-selection rule read literally: nanoseconds whenever
`s < 1000`. -/
def specUnitsClaim (s : ℚ) : String :=
  if s < 1000 then "ns"
  else if 1000 ≤ s ∧ s < 10 ^ 6 then "μs"
  else if 10 ^ 6 ≤ s ∧ s < 10 ^ 9 then "ms"
  else "s"


/-!
## Concrete inputs and model-side definitions used by the theorems below
-/

/-- An estimate record without a `confidence_interval` field. -/
def ciAbsentBody : Json :=
  .obj [("point_estimate", .num 100), ("standard_error", .num 5)]

/-- A base record whose mean point estimate is zero. -/
def zeroBase : BenchmarkResult := sampleResult "divzero" 0 5

/-- A changed record with the same name and mean 1. -/
def oneDelta : BenchmarkResult := sampleResult "divzero" 1 5

/-- A base record with mean 100 (std_dev 1). -/
def baseHundred : BenchmarkResult := sampleResult "bench" 100 1

/-- A changed record with mean 150 (std_dev 1): slower than base, and the
comparison is significant with `pctDiff = 50`. -/
def slowDelta : BenchmarkResult := sampleResult "bench" 150 1

/-- A valid shape-A input: one JSON object keyed by benchmark name under
`benchmarks`. -/
def shapeAInput : String :=
  "\x7b\"benchmarks\": \x7b\"solve\": \x7b\"baseline\": \"base\", \"criterion_estimates_v1\": \x7b\"mean\": \x7b\"point_estimate\": 100, \"standard_error\": 5\x7d, \"median\": \x7b\"point_estimate\": 99, \"standard_error\": 4\x7d, \"std_dev\": \x7b\"point_estimate\": 6, \"standard_error\": 2\x7d\x7d\x7d\x7d\x7d"

/-- The benchmark record shape-A parsing of `shapeAInput` yields. -/
def solveResult : BenchmarkResult :=
  { name := "solve"
    baseline := .str "base"
    mean := ⟨"mean", some (.num 100), some (.num 5), some (.num 100), some (.num 100), some (.num 0)⟩
    median := ⟨"median", some (.num 99), some (.num 4), some (.num 99), some (.num 99), some (.num 0)⟩
    std_dev := ⟨"std_dev", some (.num 6), some (.num 2), some (.num 6), some (.num 6), some (.num 0)⟩ }

/-- A valid shape-B input: newline-delimited JSON objects, two tagged with
the completed-benchmark discriminant and one (in between) with another
discriminant. -/
def shapeBInput : String :=
  "\x7b\"reason\": \"benchmark-complete\", \"id\": \"fib\", \"mean\": \x7b\"estimate\": 10\x7d, \"median\": \x7b\"estimate\": 11\x7d\x7d\n\x7b\"reason\": \"group-complete\", \"group_name\": \"g\"\x7d\n\x7b\"reason\": \"benchmark-complete\", \"id\": \"fact\", \"mean\": \x7b\"estimate\": 20\x7d, \"median\": \x7b\"estimate\": 21\x7d\x7d"

/-- The first completed-benchmark message of `shapeBInput`. -/
def msgFib : Json :=
  .obj [("reason", .str "benchmark-complete"), ("id", .str "fib"),
    ("mean", .obj [("estimate", .num 10)]), ("median", .obj [("estimate", .num 11)])]

/-- The third (second completed-benchmark) message of `shapeBInput`. -/
def msgFact : Json :=
  .obj [("reason", .str "benchmark-complete"), ("id", .str "fact"),
    ("mean", .obj [("estimate", .num 20)]), ("median", .obj [("estimate", .num 21)])]

/-- The estimates of a well-formed benchmark record. -/
def goodEstimates : Json :=
  .obj [("criterion_estimates_v1", .obj
    [("mean", .obj [("point_estimate", .num 2), ("standard_error", .num 1)]),
     ("median", .obj [("point_estimate", .num 2), ("standard_error", .num 1)]),
     ("std_dev", .obj [("point_estimate", .num 1), ("standard_error", .num 1)])])]

/-- A benchmark record whose estimates lack `mean`. -/
def badRecord : Json :=
  .obj [("criterion_estimates_v1", .obj
    [("median", .obj [("point_estimate", .num 2), ("standard_error", .num 1)])])]

/-- A run export containing the well-formed record `good` followed by the
`mean`-less record `bad`. -/
def missingMeanInput : String :=
  "\x7b\"benchmarks\": \x7b\"good\": \x7b\"criterion_estimates_v1\": \x7b\"mean\": \x7b\"point_estimate\": 2, \"standard_error\": 1\x7d, \"median\": \x7b\"point_estimate\": 2, \"standard_error\": 1\x7d, \"std_dev\": \x7b\"point_estimate\": 1, \"standard_error\": 1\x7d\x7d\x7d, \"bad\": \x7b\"criterion_estimates_v1\": \x7b\"median\": \x7b\"point_estimate\": 2, \"standard_error\": 1\x7d\x7d\x7d\x7d\x7d"

/-- The comparisons the pairing loop produces: one per name with entries
in both dictionaries. -/
def pairedComps (bd dd : List (String × BenchmarkResult)) (names : List String) :
    List BenchmarkComparison :=
  names.filterMap fun n =>
    match lookupA bd n, lookupA dd n with
    | some b, some d => some (compOf b d)
    | _, _ => none

/-- The `inBaseOnly` set the pairing loop accumulates. -/
def baseOnlyFold (bd dd : List (String × BenchmarkResult)) (names : List String)
    (acc : List String) : List String :=
  names.foldl
    (fun acc n =>
      match lookupA bd n, lookupA dd n with
      | some _, some _ => acc
      | none, _ => acc
      | some _, none => setAdd acc n) acc

/-- The `inDeltaOnly` set the pairing loop accumulates. -/
def deltaOnlyFold (bd dd : List (String × BenchmarkResult)) (names : List String)
    (acc : List String) : List String :=
  names.foldl
    (fun acc n =>
      match lookupA bd n, lookupA dd n with
      | some _, some _ => acc
      | none, _ => setAdd acc n
      | some _, none => acc) acc

/-- Base run of the C7 witness: names `a`, `b`. -/
def wBase7 : List BenchmarkResult := [sampleResult "a" 1 1, sampleResult "b" 2 1]

/-- Changed run of the C7 witness: names `b`, `c`. -/
def wDelta7 : List BenchmarkResult := [sampleResult "b" 3 1, sampleResult "c" 4 1]

/-- The single comparison `pair({a,b},{b,c})` produces, for `b`. -/
def wComp7 : BenchmarkComparison := compOf (sampleResult "b" 2 1) (sampleResult "b" 3 1)

/-- Base run of the C10 witness: two results both named `a` (means 10 and
20). -/
def wBase10 : List BenchmarkResult := [sampleResult "a" 10 1, sampleResult "a" 20 1]

/-- Changed run of the C10 witness: one result named `a` (mean 30). -/
def wDelta10 : List BenchmarkResult := [sampleResult "a" 30 1]

/-- The single comparison the C10 witness produces: the later base result
(mean 20) wins. -/
def wComp10 : BenchmarkComparison := compOf (sampleResult "a" 20 1) (sampleResult "a" 30 1)

/-- Claim C5 (counterexample): at `s = 0` the claim's rule selects
nanoseconds (`0 < 1000`), but `displayUnits` — whose first guard is
`0 < s && s < 1000` — falls through every range test and returns seconds. -/
theorem displayUnits_zero_refutes_claim :
    specUnitsClaim 0 = "ns" ∧ displayUnits 0 = "s" ∧ displayUnits 0 ≠ specUnitsClaim 0 := by
  refine ⟨?_, ?_, ?_⟩ <;> decide

/-- Claim C5 (amended): the display unit is nanoseconds only for
`0 < s < 1000` (nonpositive durations fall through to seconds);
the other thresholds are as claimed, and conversion divides by
1, 1e3, 1e6, 1e9 respectively, formatted to two decimal places. -/
theorem displayUnits_toDisplay_amended (s : ℚ) :
    (displayUnits s = if 0 < s ∧ s < 1000 then "ns"
      else if 1000 ≤ s ∧ s < 10 ^ 6 then "μs"
      else if 10 ^ 6 ≤ s ∧ s < 10 ^ 9 then "ms"
      else "s") ∧
    toDisplay s (displayUnits s) = some (toFixed2 (s / specDivisor (displayUnits s))) := by
  refine ⟨rfl, ?_⟩
  by_cases h1 : 0 < s ∧ s < 1000
  · rw [show displayUnits s = "ns" from by rw [displayUnits, if_pos h1]]
    rw [show specDivisor "ns" = 1 from rfl, div_one]
    rfl
  · by_cases h2 : 1000 ≤ s ∧ s < 10 ^ 6
    · rw [show displayUnits s = "μs" from by rw [displayUnits, if_neg h1, if_pos h2]]
      rfl
    · by_cases h3 : 10 ^ 6 ≤ s ∧ s < 10 ^ 9
      · rw [show displayUnits s = "ms" from by rw [displayUnits, if_neg h1, if_neg h2, if_pos h3]]
        rfl
      · rw [show displayUnits s = "s" from by rw [displayUnits, if_neg h1, if_neg h2, if_neg h3]]
        rfl

/-!
## Claim C8 — defaulted confidence interval
-/

/-- Claim C8: when the source JSON of an estimate record omits the
`confidence_interval` object, the constructed `MeasurementStats` has
`lowerBound == upperBound == pointEstimate` and `confidenceLevel == 0`. -/
theorem measurementStats_default_interval (kind : String) (body : Json)
    (h : getField body "confidence_interval" = none) :
    (MeasurementStats.make kind body).2.lowerBound = (MeasurementStats.make kind body).2.pointEstimate ∧
    (MeasurementStats.make kind body).2.upperBound = (MeasurementStats.make kind body).2.pointEstimate ∧
    (MeasurementStats.make kind body).2.confidenceLevel = some (.num 0) := by
  simp [MeasurementStats.make, h]

/-- Witness for C8 at a concrete estimate record. -/
theorem measurementStats_default_interval_witness :
    (MeasurementStats.make "mean" ciAbsentBody).2.lowerBound
        = (MeasurementStats.make "mean" ciAbsentBody).2.pointEstimate ∧
    (MeasurementStats.make "mean" ciAbsentBody).2.upperBound
        = (MeasurementStats.make "mean" ciAbsentBody).2.pointEstimate ∧
    (MeasurementStats.make "mean" ciAbsentBody).2.confidenceLevel = some (.num 0) :=
  measurementStats_default_interval "mean" ciAbsentBody rfl

/-!
## Claim C2 — zero base mean
-/

/-- Claim C2 (code behaviour at the failing input): constructing the
comparison for a base mean of zero raises no error at all — the
construction succeeds — and the stored `pctDiff` is the JavaScript result
of dividing by zero, a value that is not a finite number
(`Infinity`/`NaN`, modelled `none`).  No `UndefinedRatio` signal exists in
the source. -/
theorem pctDiff_zero_base_not_signalled :
    (mkComparison zeroBase oneDelta).2 = .ok (compOf zeroBase oneDelta) ∧
    (compOf zeroBase oneDelta).pctDiff = none := by
  exact ⟨rfl, rfl⟩

/-!
## Claim C4 — bold-field selection
-/

/-- Claim C4 (counterexample): a significant comparison whose changed mean
(150) exceeds its base mean (100), so the claim requires the changed-run
field to be bolded; but `pctDiff = 50 ≤ 100`, so the source bolds the base
field instead. -/
theorem boldChoice_not_slower_side :
    (compOf baseHundred slowDelta).isSignificant = true ∧
    (compOf baseHundred slowDelta).pctDiff = some (.num 50) ∧
    boldChoice true (compOf baseHundred slowDelta).pctDiff = some ReportFields.baseRes ∧
    boldChoice true (compOf baseHundred slowDelta).pctDiff ≠ some ReportFields.deltaRes := by
  have h3 : boldChoice true (compOf baseHundred slowDelta).pctDiff = some ReportFields.baseRes := by
    with_unfolding_all rfl
  refine ⟨by with_unfolding_all rfl, by with_unfolding_all rfl, h3, ?_⟩
  rw [h3]
  simp

/-- Claim C4 (amended): with bolding enabled, the changed-run field is
bolded exactly when `pctDiff > 100` — for a positive base mean, exactly
when the changed mean exceeds twice the base mean — and otherwise the base
field is bolded; the choice does not track which side is slower. -/
theorem boldChoice_amended (b d : BenchmarkResult) (mBase mDelta : ℚ)
    (hb : b.mean.pointEstimate = some (.num mBase))
    (hd : d.mean.pointEstimate = some (.num mDelta))
    (hpos : 0 < mBase) :
    boldChoice true (compOf b d).pctDiff =
      some (if 2 * mBase < mDelta then ReportFields.deltaRes else ReportFields.baseRes) := by
  have hne : mBase ≠ 0 := ne_of_gt hpos
  simp only [compOf, boldChoice, jsDiv, jsMul, jsSub, jsGt, jsNum?, hb, hd, if_true]
  simp only [hne, if_false, reduceCtorEq]
  by_cases h : 2 * mBase < mDelta
  · have hcond : (100 : ℚ) * (mDelta - mBase) / mBase > 100 := by
      rw [gt_iff_lt, lt_div_iff₀ hpos]
      nlinarith
    simp [hcond, h]
  · have hcond : ¬ ((100 : ℚ) * (mDelta - mBase) / mBase > 100) := by
      rw [gt_iff_lt, lt_div_iff₀ hpos]
      intro hcontra
      nlinarith
    simp [hcond, h]

/-- Witness for the amended C4: base mean 100, changed mean 250
(`pctDiff = 150 > 100`), so the changed-run field is chosen. -/
theorem boldChoice_amended_witness :
    boldChoice true (compOf (sampleResult "w" 100 1) (sampleResult "w" 250 1)).pctDiff =
      some (if 2 * (100 : ℚ) < 250 then ReportFields.deltaRes else ReportFields.baseRes) :=
  boldChoice_amended (sampleResult "w" 100 1) (sampleResult "w" 250 1) 100 250 rfl rfl
    (by norm_num)

/-!
## Claim C9 — name-mismatch handling
-/

/-- Claim C9 (counterexample): asking the comparator to pair two records
whose names differ does not log the mismatch and does not skip the pair —
the constructor throws `Error('Trying to compare benchmarks with different
names')` before any diagnostic is emitted (log component `[]`, fatal
error). -/
theorem mkComparison_mismatch_unlogged_fatal :
    mkComparison (sampleResult "alpha" 1 1) (sampleResult "beta" 1 1)
      = ([], .error .nameMismatch) := by
  rfl

/-- Claim C9 (amended): constructing a comparison for mismatched names is
a fatal contract violation — the constructor throws, without logging and
without computing a comparison (matching §3's invariant); only the
significance check `diffSignificant`, when invoked directly on mismatched
names, logs a warning and reports not-significant. -/
theorem nameMismatch_fatal_unlogged (b d : BenchmarkResult) (h : b.name ≠ d.name) :
    mkComparison b d = ([], .error .nameMismatch) ∧
    diffSignificant b d = ([.nameMismatchWarning d.name b.name], false) := by
  constructor
  · rw [mkComparison, if_pos h]
  · rw [diffSignificant, if_pos (Ne.symm h)]

/-- Witness for the amended C9 at two concretely mismatched records. -/
theorem nameMismatch_fatal_unlogged_witness :
    mkComparison (sampleResult "first" 1 1) (sampleResult "second" 1 1)
      = ([], .error .nameMismatch) ∧
    diffSignificant (sampleResult "first" 1 1) (sampleResult "second" 1 1)
      = ([.nameMismatchWarning "second" "first"], false) :=
  nameMismatch_fatal_unlogged (sampleResult "first" 1 1) (sampleResult "second" 1 1)
    (by decide)

/-!
## Claim C1 — the significance verdict matches the spec's heuristic
-/

/-- Claim C1: for benchmark results with numeric estimates and nonnegative
errors, the verdict computed when constructing a `BenchmarkComparison`
equals the spec's heuristic: writing `mBase`/`eBase` for the base mean and
std_dev point estimates and `mDelta`/`eDelta` for the changed run's, if
`mDelta < mBase` then significant iff `mDelta + eDelta < mBase` or
`mBase - eBase > mDelta`, otherwise iff `mDelta - eDelta > mBase` or
`mBase + eBase < mDelta`. -/
theorem diffSignificant_matches_spec (b d : BenchmarkResult) (mBase eBase mDelta eDelta : ℚ)
    (hname : b.name = d.name)
    (hmB : b.mean.pointEstimate = some (.num mBase))
    (heB : b.std_dev.pointEstimate = some (.num eBase))
    (hmD : d.mean.pointEstimate = some (.num mDelta))
    (heD : d.std_dev.pointEstimate = some (.num eDelta))
    (hB : 0 ≤ eBase) (hD : 0 ≤ eDelta) :
    (mkComparison b d).2 = .ok (compOf b d) ∧
    ((compOf b d).isSignificant = true ↔ specSignificant mBase eBase mDelta eDelta) := by
  constructor
  · rw [mkComparison, if_neg (by simp [hname])]
  · show (diffSignificant b d).2 = true ↔ _
    rw [diffSignificant, if_neg (by simp [hname])]
    simp only [hmB, heB, hmD, heD, jsLt, jsGt, jsAdd, jsSub, jsNum?, specSignificant]
    rcases lt_trichotomy mBase mDelta with hlt | heq | hgt
    · rw [if_pos (by simp only [decide_eq_true_eq]; exact hlt),
        if_neg (not_lt.mpr (le_of_lt hlt))]
      simp only [Bool.or_eq_true, decide_eq_true_eq, gt_iff_lt]
      tauto
    · subst heq
      rw [if_neg (by simp only [decide_eq_true_eq]; exact lt_irrefl mBase),
        if_neg (lt_irrefl mBase)]
      simp only [Bool.or_eq_true, decide_eq_true_eq, gt_iff_lt]
      constructor
      · rintro (h | h) <;> [linarith; linarith]
      · rintro (h | h) <;> [linarith; linarith]
    · rw [if_neg (by simp only [decide_eq_true_eq]; exact not_lt.mpr (le_of_lt hgt)),
        if_pos hgt]
      simp only [Bool.or_eq_true, decide_eq_true_eq, gt_iff_lt]
      tauto

/-- Witness for C1: the spec's own example — base 100 ± 5, changed
120 ± 5 — is significant under both the source's verdict and the spec
formula. -/
theorem diffSignificant_matches_spec_witness :
    ((mkComparison (sampleResult "ex" 100 5) (sampleResult "ex" 120 5)).2
        = .ok (compOf (sampleResult "ex" 100 5) (sampleResult "ex" 120 5)) ∧
      ((compOf (sampleResult "ex" 100 5) (sampleResult "ex" 120 5)).isSignificant = true ↔
        specSignificant 100 5 120 5)) ∧
    (compOf (sampleResult "ex" 100 5) (sampleResult "ex" 120 5)).isSignificant = true := by
  refine ⟨diffSignificant_matches_spec (sampleResult "ex" 100 5) (sampleResult "ex" 120 5)
    100 5 120 5 rfl rfl rfl rfl rfl (by norm_num) (by norm_num), ?_⟩
  with_unfolding_all rfl

/-!
## Claim C3 — both wire shapes are accepted
-/

set_option maxRecDepth 100000 in
/-- Claim C3: the run parser accepts both wire shapes, auto-detected by
top-level structure — a valid shape-A document yields its benchmark
records, and a valid shape-B stream yields its completed-benchmark
records, skipping the record with another discriminant without error. -/
theorem parseRun_two_shapes :
    parseRun shapeAInput = ([], .ok [RunRecord.exported solveResult]) ∧
    parseRun shapeBInput = ([], .ok [RunRecord.message "fib" msgFib, RunRecord.message "fact" msgFact]) := by
  constructor
  · with_unfolding_all rfl
  · with_unfolding_all rfl

/-!
## Claim C6 — fail-fast parsing with typed errors
-/

/-- If every record before position `i` constructs successfully and the
record at `i` throws, the whole loop result is that error, and the
diagnostics the failing record logged (which name it) survive into the
loop's log output: no partial result set escapes. -/
theorem buildResults_error (pre : List (String × Json)) (name : String) (v : Json)
    (rest : List (String × Json)) (e : ResultError)
    (hpre : ∀ p ∈ pre, ∃ lg r, BenchmarkResult.make p.1 p.2 = (lg, .ok r))
    (he : (BenchmarkResult.make name v).2 = .error e) :
    ∃ lgs, buildResults (pre ++ (name, v) :: rest) = (lgs, .error e) ∧
      ∀ ev ∈ (BenchmarkResult.make name v).1, ev ∈ lgs := by
  induction pre with
  | nil =>
    rcases hmk : BenchmarkResult.make name v with ⟨lg, r⟩
    rw [hmk] at he
    rcases r with e2 | br
    · obtain rfl : e2 = e := by simpa using he
      refine ⟨lg, ?_, ?_⟩
      · simp [buildResults, hmk]
      · intro ev hev
        exact hev
    · simp at he
  | cons p pre ih =>
    obtain ⟨lg, r, hp⟩ := hpre p (List.mem_cons_self p pre)
    obtain ⟨lgs2, heq2, hmem2⟩ := ih (fun q hq => hpre q (List.mem_cons_of_mem p hq))
    refine ⟨lg ++ lgs2, ?_, ?_⟩
    · cases p with
      | mk pn pv =>
        simp only [List.cons_append, buildResults, hp, heq2]
        have heq2' : buildResults (pre.append ((name, v) :: rest)) = (lgs2, Except.error e) := heq2
        rw [heq2']
    · intro ev hev
      exact List.mem_append_right lg (hmem2 ev hev)

/-- Claim C6: parsing a run is fail-fast with typed failures.
1. Text that is not valid JSON fails with the rethrown parse error (the
   spec's `MalformedInputError`) and yields no result set.
2-4. A benchmark record whose `criterion_estimates_v1` lacks `mean`,
   `median` or `std_dev` throws `Error('Benchmark data not found in
   benchmark object')` (the spec's `MissingFieldError`), logging a
   diagnostic that names the offending benchmark.
5. Inside a full parse, the first failing record aborts the run with that
   record's error, its name-bearing diagnostics surfacing in the log — no
   partial result set is returned. -/
theorem resultsFromJSONString_failfast :
    (∀ s, jsonParse s = none →
      resultsFromJSONString s = ([.parseException], .error .malformedInput)) ∧
    (∀ (name : String) (fs : List (String × Json)) (efs : List (String × Json)),
      getField (.obj fs) "criterion_estimates_v1" = some (.obj efs) →
      getField (.obj efs) "mean" = none →
      BenchmarkResult.make name (.obj fs)
        = ([.fieldNotFound "mean" name (.obj fs)], .error .benchmarkDataNotFound)) ∧
    (∀ (name : String) (fs efs mfs : List (String × Json)),
      getField (.obj fs) "criterion_estimates_v1" = some (.obj efs) →
      getField (.obj efs) "mean" = some (.obj mfs) →
      getField (.obj efs) "median" = none →
      BenchmarkResult.make name (.obj fs)
        = ((MeasurementStats.make "mean" (.obj mfs)).1
            ++ [.fieldNotFound "median" name (.obj fs)], .error .benchmarkDataNotFound)) ∧
    (∀ (name : String) (fs efs mfs dfs : List (String × Json)),
      getField (.obj fs) "criterion_estimates_v1" = some (.obj efs) →
      getField (.obj efs) "mean" = some (.obj mfs) →
      getField (.obj efs) "median" = some (.obj dfs) →
      getField (.obj efs) "std_dev" = none →
      BenchmarkResult.make name (.obj fs)
        = ((MeasurementStats.make "mean" (.obj mfs)).1
            ++ (MeasurementStats.make "median" (.obj dfs)).1
            ++ [.fieldNotFound "std_dev" name (.obj fs)], .error .benchmarkDataNotFound)) ∧
    (∀ (s : String) (tfs bfs : List (String × Json)) (pre : List (String × Json))
        (name : String) (v : Json) (rest : List (String × Json)) (e : ResultError),
      jsonParse s = some (.obj tfs) →
      getField (.obj tfs) "benchmarks" = some (.obj bfs) →
      bfs = pre ++ (name, v) :: rest →
      (∀ p ∈ pre, ∃ lg r, BenchmarkResult.make p.1 p.2 = (lg, .ok r)) →
      (BenchmarkResult.make name v).2 = .error e →
      (resultsFromJSONString s).2 = .error e ∧
      ∀ ev ∈ (BenchmarkResult.make name v).1, ev ∈ (resultsFromJSONString s).1) := by
  refine ⟨?_, ?_, ?_, ?_, ?_⟩
  · intro s h
    simp [resultsFromJSONString, h]
  · intro name fs efs h1 h2
    simp [BenchmarkResult.make, h1, h2]
  · intro name fs efs mfs h1 h2 h3
    simp [BenchmarkResult.make, h1, h2, h3]
  · intro name fs efs mfs dfs h1 h2 h3 h4
    simp [BenchmarkResult.make, h1, h2, h3, h4]
  · intro s tfs bfs pre name v rest e h1 h2 h3 hpre he
    obtain ⟨lgs, heq, hmem⟩ := buildResults_error pre name v rest e hpre he
    have hres : resultsFromJSONString s = (lgs ++ [.parseException], .error e) := by
      rw [resultsFromJSONString, h1]
      simp only [h2, jsEntries, h3, heq]
    rw [hres]
    exact ⟨rfl, fun ev hev => List.mem_append_left _ (hmem ev hev)⟩

set_option maxRecDepth 100000 in
/-- Witness for C6: invalid text gives the malformed-input failure, a
concrete `mean`-less record gives the missing-data failure naming `bad`,
and a full parse whose second record is that `bad` record aborts with the
same error and surfaces the name-bearing diagnostic. -/
theorem resultsFromJSONString_failfast_witness :
    resultsFromJSONString "this is not JSON"
      = ([.parseException], .error .malformedInput) ∧
    BenchmarkResult.make "bad" badRecord
      = ([.fieldNotFound "mean" "bad" badRecord], .error .benchmarkDataNotFound) ∧
    ((resultsFromJSONString missingMeanInput).2 = .error .benchmarkDataNotFound ∧
      ∀ ev ∈ (BenchmarkResult.make "bad" badRecord).1,
        ev ∈ (resultsFromJSONString missingMeanInput).1) := by
  obtain ⟨p1, p2, p3, p4, p5⟩ := resultsFromJSONString_failfast
  refine ⟨p1 "this is not JSON" (by with_unfolding_all rfl), ?_, ?_⟩
  · exact p2 "bad" _ _ rfl rfl
  · refine p5 missingMeanInput _ _ [("good", goodEstimates)] "bad" badRecord [] _
      (by with_unfolding_all rfl) (by with_unfolding_all rfl) (by with_unfolding_all rfl) ?_ rfl
    intro p hp
    simp only [List.mem_singleton] at hp
    subst hp
    exact ⟨[], _, by with_unfolding_all rfl⟩

/-!
## Comparator lemmas — `Map` / `Set` model facts
-/

theorem lookupA_nil (n : String) : lookupA [] n = none := rfl

theorem lookupA_cons (p : String × BenchmarkResult) (m : List (String × BenchmarkResult))
    (n : String) : lookupA (p :: m) n = if p.1 = n then some p.2 else lookupA m n := by
  rw [lookupA, lookupA, List.find?_cons]
  by_cases h : p.1 = n
  · simp [h]
  · simp [h]

theorem lookupA_append (m1 m2 : List (String × BenchmarkResult)) (n : String) :
    lookupA (m1 ++ m2) n =
      match lookupA m1 n with
      | some x => some x
      | none => lookupA m2 n := by
  induction m1 with
  | nil => simp [lookupA_nil]
  | cons p m1 ih =>
    rw [List.cons_append, lookupA_cons, lookupA_cons]
    by_cases hp : p.1 = n
    · rw [if_pos hp, if_pos hp]
    · rw [if_neg hp, if_neg hp, ih]

theorem lookupA_replace_ne (m : List (String × BenchmarkResult)) (k : String)
    (v : BenchmarkResult) (n : String) (h : n ≠ k) :
    lookupA (m.map (fun p => if p.1 = k then (k, v) else p)) n = lookupA m n := by
  induction m with
  | nil => rfl
  | cons q m ih =>
    simp only [List.map_cons]
    by_cases hq : q.1 = k
    · rw [if_pos hq, lookupA_cons, lookupA_cons]
      rw [if_neg (show ¬((k, v).1 = n) from fun hk => h hk.symm)]
      rw [if_neg (show ¬(q.1 = n) from fun hqn => h (hq ▸ hqn).symm)]
      exact ih
    · rw [if_neg hq, lookupA_cons, lookupA_cons]
      by_cases hn : q.1 = n
      · rw [if_pos hn, if_pos hn]
      · rw [if_neg hn, if_neg hn]
        exact ih

theorem lookupA_replace_eq (m : List (String × BenchmarkResult)) (k : String)
    (v : BenchmarkResult) (h : m.any (fun p => p.1 = k) = true) :
    lookupA (m.map (fun p => if p.1 = k then (k, v) else p)) k = some v := by
  induction m with
  | nil => simp at h
  | cons q m ih =>
    simp only [List.map_cons]
    by_cases hq : q.1 = k
    · rw [if_pos hq, lookupA_cons, if_pos rfl]
    · rw [if_neg hq, lookupA_cons, if_neg hq]
      refine ih ?_
      simpa [List.any_cons, hq] using h

theorem lookupA_eq_none_of_not_any (m : List (String × BenchmarkResult)) (k : String)
    (hany : ¬ m.any (fun p => p.1 = k) = true) : lookupA m k = none := by
  rw [lookupA]
  have hfind : m.find? (fun p => p.1 = k) = none := by
    rw [List.find?_eq_none]
    intro p hp hpk
    exact hany (List.any_eq_true.2 ⟨p, hp, hpk⟩)
  rw [hfind]
  rfl

theorem lookupA_mapSet (m : List (String × BenchmarkResult)) (k : String)
    (v : BenchmarkResult) (n : String) :
    lookupA (mapSet m k v) n = if n = k then some v else lookupA m n := by
  by_cases hany : m.any (fun p => p.1 = k) = true
  · rw [mapSet, if_pos hany]
    by_cases hn : n = k
    · subst hn
      rw [if_pos rfl]
      exact lookupA_replace_eq m n v hany
    · rw [if_neg hn]
      exact lookupA_replace_ne m k v n hn
  · rw [mapSet, if_neg hany, lookupA_append]
    have hnone : lookupA m k = none := lookupA_eq_none_of_not_any m k hany
    by_cases hn : n = k
    · subst hn
      rw [hnone, if_pos rfl, lookupA_cons, if_pos rfl]
    · rw [if_neg hn]
      cases hm : lookupA m n with
      | some x => rfl
      | none =>
        rw [lookupA_cons, if_neg (fun hk => hn hk.symm)]
        rfl

theorem lastNamed_name (rs : List BenchmarkResult) (n : String) (x : BenchmarkResult) :
    lastNamed rs n = some x → x.name = n := by
  rw [lastNamed]
  suffices h : ∀ seed : Option BenchmarkResult, (∀ y, seed = some y → y.name = n) →
      rs.foldl (fun acc r => if r.name = n then some r else acc) seed = some x → x.name = n by
    exact h none (by intro y hy; cases hy)
  induction rs with
  | nil =>
    intro seed hseed h
    exact hseed x h
  | cons r rs ih =>
    intro seed hseed h
    refine ih _ ?_ h
    intro y hy
    dsimp only at hy
    by_cases hr : r.name = n
    · rw [if_pos hr] at hy
      cases hy
      exact hr
    · rw [if_neg hr] at hy
      exact hseed y hy

theorem lastNamed_isSome_iff (rs : List BenchmarkResult) (n : String) :
    (lastNamed rs n).isSome = true ↔ n ∈ rs.map (fun r => r.name) := by
  rw [lastNamed]
  suffices h : ∀ seed : Option BenchmarkResult,
      (rs.foldl (fun acc r => if r.name = n then some r else acc) seed).isSome = true ↔
        seed.isSome = true ∨ n ∈ rs.map (fun r => r.name) by
    simpa using h none
  induction rs with
  | nil => simp
  | cons r rs ih =>
    intro seed
    rw [List.foldl_cons, ih]
    by_cases hr : r.name = n
    · simp [hr]
    · dsimp only
      rw [if_neg hr]
      simp only [List.map_cons, List.mem_cons]
      constructor
      · rintro (h | h)
        · exact Or.inl h
        · exact Or.inr (Or.inr h)
      · rintro (h | h | h)
        · exact Or.inl h
        · exact absurd h.symm hr
        · exact Or.inr h

theorem lookupA_dictOf (rs : List BenchmarkResult) (n : String) :
    lookupA (dictOf rs) n = lastNamed rs n := by
  rw [dictOf, lastNamed]
  suffices h : ∀ m, lookupA (rs.foldl (fun m x => mapSet m x.name x) m) n
      = rs.foldl (fun acc x => if x.name = n then some x else acc) (lookupA m n) by
    simpa using h []
  induction rs with
  | nil => intro m; rfl
  | cons x rs ih =>
    intro m
    rw [List.foldl_cons, List.foldl_cons, ih (mapSet m x.name x)]
    congr 1
    rw [lookupA_mapSet]
    by_cases hx : x.name = n
    · rw [if_pos hx.symm, if_pos hx]
    · rw [if_neg (fun h => hx h.symm), if_neg hx]

theorem mem_setAdd (l : List String) (s a : String) :
    a ∈ setAdd l s ↔ a ∈ l ∨ a = s := by
  by_cases h : s ∈ l
  · rw [setAdd, if_pos h]
    constructor
    · exact Or.inl
    · rintro (h1 | rfl)
      · exact h1
      · exact h
  · rw [setAdd, if_neg h]
    simp

theorem nodup_setAdd (l : List String) (s : String) (h : l.Nodup) : (setAdd l s).Nodup := by
  by_cases hs : s ∈ l
  · rwa [setAdd, if_pos hs]
  · rw [setAdd, if_neg hs]
    simpa [List.nodup_append] using ⟨h, hs⟩

theorem mem_foldl_setAdd (rs : List BenchmarkResult) :
    ∀ (init : List String) (a : String),
      a ∈ rs.foldl (fun acc x => setAdd acc x.name) init ↔
        a ∈ init ∨ a ∈ rs.map (fun r => r.name) := by
  induction rs with
  | nil => simp
  | cons r rs ih =>
    intro init a
    rw [List.foldl_cons, ih, mem_setAdd]
    simp only [List.map_cons, List.mem_cons]
    constructor
    · rintro ((h | h) | h)
      · exact Or.inl h
      · exact Or.inr (Or.inl h)
      · exact Or.inr (Or.inr h)
    · rintro (h | h | h)
      · exact Or.inl (Or.inl h)
      · exact Or.inl (Or.inr h)
      · exact Or.inr h

theorem nodup_foldl_setAdd (rs : List BenchmarkResult) :
    ∀ init : List String, init.Nodup → (rs.foldl (fun acc x => setAdd acc x.name) init).Nodup := by
  induction rs with
  | nil => intro init h; exact h
  | cons r rs ih =>
    intro init h
    rw [List.foldl_cons]
    exact ih _ (nodup_setAdd init r.name h)

theorem mem_namesOf (base delta : List BenchmarkResult) (a : String) :
    a ∈ namesOf base delta ↔
      a ∈ base.map (fun r => r.name) ∨ a ∈ delta.map (fun r => r.name) := by
  rw [namesOf, mem_foldl_setAdd, mem_foldl_setAdd]
  simp

theorem nodup_namesOf (base delta : List BenchmarkResult) : (namesOf base delta).Nodup :=
  nodup_foldl_setAdd delta _ (nodup_foldl_setAdd base [] List.nodup_nil)

theorem pairedComps_cons (bd dd : List (String × BenchmarkResult)) (n : String)
    (rest : List String) :
    pairedComps bd dd (n :: rest) =
      (match lookupA bd n, lookupA dd n with
        | some b, some d => [compOf b d]
        | _, _ => []) ++ pairedComps bd dd rest := by
  rw [pairedComps, pairedComps, List.filterMap_cons]
  rcases lookupA bd n with _ | b
  · rfl
  · rcases lookupA dd n with _ | d
    · rfl
    · rfl

theorem baseOnlyFold_cons (bd dd : List (String × BenchmarkResult)) (n : String)
    (rest : List String) (acc : List String) :
    baseOnlyFold bd dd (n :: rest) acc =
      baseOnlyFold bd dd rest
        (match lookupA bd n, lookupA dd n with
          | some _, some _ => acc
          | none, _ => acc
          | some _, none => setAdd acc n) := by
  rw [baseOnlyFold, baseOnlyFold, List.foldl_cons]

theorem deltaOnlyFold_cons (bd dd : List (String × BenchmarkResult)) (n : String)
    (rest : List String) (acc : List String) :
    deltaOnlyFold bd dd (n :: rest) acc =
      deltaOnlyFold bd dd rest
        (match lookupA bd n, lookupA dd n with
          | some _, some _ => acc
          | none, _ => setAdd acc n
          | some _, none => acc) := by
  rw [deltaOnlyFold, deltaOnlyFold, List.foldl_cons]

theorem diffSignificant_logs_nil (b d : BenchmarkResult) (h : b.name = d.name) :
    (diffSignificant b d).1 = [] := by
  rw [diffSignificant, if_neg (by simp [h])]

theorem mkComparison_eq_ok (b d : BenchmarkResult) (h : b.name = d.name) :
    mkComparison b d = ([], .ok (compOf b d)) := by
  rw [mkComparison, if_neg (by simp [h]), diffSignificant_logs_nil b d h]

/-- Closed form of the pairing loop when both dictionaries key every entry
by its record's name (as the dictionaries built by `processResults` do):
the loop never throws, logs nothing, and extends its accumulators with the
paired comparisons and the two orphan sets. -/
theorem pairLoop_eq (bd dd : List (String × BenchmarkResult))
    (HB : ∀ n x, lookupA bd n = some x → x.name = n)
    (HD : ∀ n x, lookupA dd n = some x → x.name = n) :
    ∀ (names : List String) (comps : List BenchmarkComparison) (bO dO : List String),
      pairLoop bd dd names comps bO dO =
        ([], .ok (comps ++ pairedComps bd dd names,
          baseOnlyFold bd dd names bO, deltaOnlyFold bd dd names dO)) := by
  intro names
  induction names with
  | nil =>
    intro comps bO dO
    simp [pairLoop, pairedComps, baseOnlyFold, deltaOnlyFold]
  | cons n rest ih =>
    intro comps bO dO
    rcases hb : lookupA bd n with _ | b
    · rw [show pairLoop bd dd (n :: rest) comps bO dO
          = pairLoop bd dd rest comps bO (setAdd dO n) from by
        rw [pairLoop, hb]]
      rw [ih]
      simp [pairedComps_cons, baseOnlyFold_cons, deltaOnlyFold_cons, hb]
    · rcases hd : lookupA dd n with _ | d
      · rw [show pairLoop bd dd (n :: rest) comps bO dO
            = pairLoop bd dd rest comps (setAdd bO n) dO from by
          rw [pairLoop, hb, hd]]
        rw [ih]
        simp [pairedComps_cons, baseOnlyFold_cons, deltaOnlyFold_cons, hb, hd]
      · have hname : b.name = d.name := by rw [HB n b hb, HD n d hd]
        have hstep : pairLoop bd dd (n :: rest) comps bO dO
            = pairLoop bd dd rest (comps ++ [compOf b d]) bO dO := by
          rw [pairLoop, hb, hd]
          dsimp only
          rw [mkComparison_eq_ok b d hname]
          dsimp only
          rcases hpl : pairLoop bd dd rest (comps ++ [compOf b d]) bO dO with ⟨lg2, r2⟩
          simp
        rw [hstep, ih]
        simp [pairedComps_cons, baseOnlyFold_cons, deltaOnlyFold_cons, hb, hd,
          List.append_assoc]

theorem lookupA_dictOf_name (rs : List BenchmarkResult) (n : String) (x : BenchmarkResult)
    (h : lookupA (dictOf rs) n = some x) : x.name = n := by
  rw [lookupA_dictOf] at h
  exact lastNamed_name rs n x h

/-- `processResults` never throws and never logs: its value is exactly the
paired comparisons plus the two orphan sets. -/
theorem processResults_eq (base delta : List BenchmarkResult) :
    processResults base delta =
      ([], .ok (pairedComps (dictOf base) (dictOf delta) (namesOf base delta),
        baseOnlyFold (dictOf base) (dictOf delta) (namesOf base delta) [],
        deltaOnlyFold (dictOf base) (dictOf delta) (namesOf base delta) [])) := by
  rw [processResults,
    pairLoop_eq (dictOf base) (dictOf delta) (lookupA_dictOf_name base)
      (lookupA_dictOf_name delta) (namesOf base delta) [] [] []]
  rw [List.nil_append]

/-- The names of the paired comparisons are exactly the names present in
both dictionaries, in union order. -/
theorem map_name_pairedComps (bd dd : List (String × BenchmarkResult))
    (HB : ∀ n x, lookupA bd n = some x → x.name = n) :
    ∀ names : List String,
      (pairedComps bd dd names).map (fun c => c.name)
        = names.filter (fun n => (lookupA bd n).isSome && (lookupA dd n).isSome) := by
  intro names
  induction names with
  | nil => rfl
  | cons n rest ih =>
    rw [pairedComps_cons, List.filter_cons]
    rcases hb : lookupA bd n with _ | b
    · simp [hb, ih]
    · rcases hd : lookupA dd n with _ | d
      · simp [hb, hd, ih]
      · have hname : (compOf b d).name = n := HB n b hb
        simp [hb, hd, ih, hname]

theorem mem_baseOnlyFold (bd dd : List (String × BenchmarkResult)) :
    ∀ (names : List String) (acc : List String) (a : String),
      a ∈ baseOnlyFold bd dd names acc ↔
        a ∈ acc ∨ (a ∈ names ∧ (lookupA bd a).isSome = true ∧ lookupA dd a = none) := by
  intro names
  induction names with
  | nil => simp [baseOnlyFold]
  | cons n rest ih =>
    intro acc a
    rw [baseOnlyFold_cons]
    rcases hb : lookupA bd n with _ | b
    · dsimp only
      rw [ih]
      constructor
      · rintro (h | ⟨h1, h2, h3⟩)
        · exact Or.inl h
        · exact Or.inr ⟨List.mem_cons_of_mem n h1, h2, h3⟩
      · rintro (h | ⟨h1, h2, h3⟩)
        · exact Or.inl h
        · rcases List.mem_cons.1 h1 with rfl | h1
          · rw [hb] at h2
            simp at h2
          · exact Or.inr ⟨h1, h2, h3⟩
    · rcases hd : lookupA dd n with _ | d
      · dsimp only
        rw [ih, mem_setAdd]
        constructor
        · rintro ((h | rfl) | ⟨h1, h2, h3⟩)
          · exact Or.inl h
          · exact Or.inr ⟨List.mem_cons_self _ _, by rw [hb]; rfl, hd⟩
          · exact Or.inr ⟨List.mem_cons_of_mem n h1, h2, h3⟩
        · rintro (h | ⟨h1, h2, h3⟩)
          · exact Or.inl (Or.inl h)
          · rcases List.mem_cons.1 h1 with rfl | h1
            · exact Or.inl (Or.inr rfl)
            · exact Or.inr ⟨h1, h2, h3⟩
      · dsimp only
        rw [ih]
        constructor
        · rintro (h | ⟨h1, h2, h3⟩)
          · exact Or.inl h
          · exact Or.inr ⟨List.mem_cons_of_mem n h1, h2, h3⟩
        · rintro (h | ⟨h1, h2, h3⟩)
          · exact Or.inl h
          · rcases List.mem_cons.1 h1 with rfl | h1
            · rw [hd] at h3
              simp at h3
            · exact Or.inr ⟨h1, h2, h3⟩

theorem mem_deltaOnlyFold (bd dd : List (String × BenchmarkResult)) :
    ∀ (names : List String) (acc : List String) (a : String),
      a ∈ deltaOnlyFold bd dd names acc ↔
        a ∈ acc ∨ (a ∈ names ∧ lookupA bd a = none) := by
  intro names
  induction names with
  | nil => simp [deltaOnlyFold]
  | cons n rest ih =>
    intro acc a
    rw [deltaOnlyFold_cons]
    rcases hb : lookupA bd n with _ | b
    · dsimp only
      rw [ih, mem_setAdd]
      constructor
      · rintro ((h | rfl) | ⟨h1, h2⟩)
        · exact Or.inl h
        · exact Or.inr ⟨List.mem_cons_self _ _, hb⟩
        · exact Or.inr ⟨List.mem_cons_of_mem n h1, h2⟩
      · rintro (h | ⟨h1, h2⟩)
        · exact Or.inl (Or.inl h)
        · rcases List.mem_cons.1 h1 with rfl | h1
          · exact Or.inl (Or.inr rfl)
          · exact Or.inr ⟨h1, h2⟩
    · rcases hd : lookupA dd n with _ | d
      all_goals
        dsimp only
        rw [ih]
        constructor
        · rintro (h | ⟨h1, h2⟩)
          · exact Or.inl h
          · exact Or.inr ⟨List.mem_cons_of_mem n h1, h2⟩
        · rintro (h | ⟨h1, h2⟩)
          · exact Or.inl h
          · rcases List.mem_cons.1 h1 with rfl | h1
            · rw [hb] at h2
              simp at h2
            · exact Or.inr ⟨h1, h2⟩

/-!
## Claim C7 — pairing partitions the union of names exactly
-/

/-- Claim C7: `processResults` partitions the union of benchmark names
exactly — a name present in both runs yields exactly one comparison and is
in neither orphan set; a name present only in the base run is only in
`inBaseOnly`; a name present only in the changed run is only in
`inDeltaOnly`; an absent name is nowhere.  In particular no orphan name is
ever compared. -/
theorem processResults_partition (base delta : List BenchmarkResult)
    (lgs : List LogEvent) (comps : List BenchmarkComparison) (bO dO : List String)
    (h : processResults base delta = (lgs, .ok (comps, bO, dO))) (n : String) :
    ((n ∈ base.map (fun r => r.name) ∧ n ∈ delta.map (fun r => r.name)) →
        (comps.map (fun c => c.name)).count n = 1 ∧ n ∉ bO ∧ n ∉ dO) ∧
    ((n ∈ base.map (fun r => r.name) ∧ n ∉ delta.map (fun r => r.name)) →
        n ∈ bO ∧ n ∉ dO ∧ n ∉ comps.map (fun c => c.name)) ∧
    ((n ∉ base.map (fun r => r.name) ∧ n ∈ delta.map (fun r => r.name)) →
        n ∈ dO ∧ n ∉ bO ∧ n ∉ comps.map (fun c => c.name)) ∧
    ((n ∉ base.map (fun r => r.name) ∧ n ∉ delta.map (fun r => r.name)) →
        n ∉ comps.map (fun c => c.name) ∧ n ∉ bO ∧ n ∉ dO) := by
  have h2 : ((lgs, Except.ok (comps, bO, dO)) :
        List LogEvent × Except ResultError
          (List BenchmarkComparison × List String × List String))
      = ([], Except.ok (pairedComps (dictOf base) (dictOf delta) (namesOf base delta),
          baseOnlyFold (dictOf base) (dictOf delta) (namesOf base delta) [],
          deltaOnlyFold (dictOf base) (dictOf delta) (namesOf base delta) [])) := by
    rw [← h, processResults_eq]
  simp only [Prod.mk.injEq, Except.ok.injEq] at h2
  obtain ⟨-, hc, hbo, hdo⟩ := h2
  subst hc hbo hdo
  have hBsome : ∀ m, (lookupA (dictOf base) m).isSome = true ↔ m ∈ base.map (fun r => r.name) :=
    fun m => by rw [lookupA_dictOf]; exact lastNamed_isSome_iff base m
  have hDsome : ∀ m, (lookupA (dictOf delta) m).isSome = true ↔ m ∈ delta.map (fun r => r.name) :=
    fun m => by rw [lookupA_dictOf]; exact lastNamed_isSome_iff delta m
  have hBnone : ∀ m, lookupA (dictOf base) m = none ↔ m ∉ base.map (fun r => r.name) := by
    intro m
    rw [← hBsome m, ← Option.not_isSome_iff_eq_none]
  have hDnone : ∀ m, lookupA (dictOf delta) m = none ↔ m ∉ delta.map (fun r => r.name) := by
    intro m
    rw [← hDsome m, ← Option.not_isSome_iff_eq_none]
  have hmapname : (pairedComps (dictOf base) (dictOf delta) (namesOf base delta)).map
        (fun c => c.name)
      = (namesOf base delta).filter
          (fun m => (lookupA (dictOf base) m).isSome && (lookupA (dictOf delta) m).isSome) :=
    map_name_pairedComps (dictOf base) (dictOf delta) (lookupA_dictOf_name base) _
  have hmemcomps : ∀ m, m ∈ (pairedComps (dictOf base) (dictOf delta)
        (namesOf base delta)).map (fun c => c.name) ↔
      (m ∈ base.map (fun r => r.name) ∧ m ∈ delta.map (fun r => r.name)) := by
    intro m
    rw [hmapname, List.mem_filter, mem_namesOf]
    constructor
    · rintro ⟨-, hand⟩
      rw [Bool.and_eq_true] at hand
      exact ⟨(hBsome m).1 hand.1, (hDsome m).1 hand.2⟩
    · rintro ⟨hb, hd⟩
      refine ⟨Or.inl hb, ?_⟩
      rw [Bool.and_eq_true]
      exact ⟨(hBsome m).2 hb, (hDsome m).2 hd⟩
  have hmembO : ∀ m, m ∈ baseOnlyFold (dictOf base) (dictOf delta) (namesOf base delta) [] ↔
      (m ∈ base.map (fun r => r.name) ∧ m ∉ delta.map (fun r => r.name)) := by
    intro m
    rw [mem_baseOnlyFold]
    simp only [List.not_mem_nil, false_or]
    constructor
    · rintro ⟨-, hbs, hdn⟩
      exact ⟨(hBsome m).1 hbs, (hDnone m).1 hdn⟩
    · rintro ⟨hb, hd⟩
      exact ⟨(mem_namesOf base delta m).2 (Or.inl hb), (hBsome m).2 hb, (hDnone m).2 hd⟩
  have hmemdO : ∀ m, m ∈ deltaOnlyFold (dictOf base) (dictOf delta) (namesOf base delta) [] ↔
      (m ∉ base.map (fun r => r.name) ∧ m ∈ delta.map (fun r => r.name)) := by
    intro m
    rw [mem_deltaOnlyFold]
    simp only [List.not_mem_nil, false_or]
    constructor
    · rintro ⟨hmem, hbn⟩
      have hnb := (hBnone m).1 hbn
      rcases (mem_namesOf base delta m).1 hmem with hmb | hmd
      · exact absurd hmb hnb
      · exact ⟨hnb, hmd⟩
    · rintro ⟨hb, hd⟩
      exact ⟨(mem_namesOf base delta m).2 (Or.inr hd), (hBnone m).2 hb⟩
  have hnodup : ((pairedComps (dictOf base) (dictOf delta) (namesOf base delta)).map
      (fun c => c.name)).Nodup := by
    rw [hmapname]
    exact (nodup_namesOf base delta).filter _
  refine ⟨?_, ?_, ?_, ?_⟩
  · rintro ⟨hb, hd⟩
    refine ⟨List.count_eq_one_of_mem hnodup ((hmemcomps n).2 ⟨hb, hd⟩), ?_, ?_⟩
    · intro hmem
      exact ((hmembO n).1 hmem).2 hd
    · intro hmem
      exact ((hmemdO n).1 hmem).1 hb
  · rintro ⟨hb, hd⟩
    refine ⟨(hmembO n).2 ⟨hb, hd⟩, ?_, ?_⟩
    · intro hmem
      exact ((hmemdO n).1 hmem).1 hb
    · intro hmem
      exact hd ((hmemcomps n).1 hmem).2
  · rintro ⟨hb, hd⟩
    refine ⟨(hmemdO n).2 ⟨hb, hd⟩, ?_, ?_⟩
    · intro hmem
      exact hb ((hmembO n).1 hmem).1
    · intro hmem
      exact hb ((hmemcomps n).1 hmem).1
  · rintro ⟨hb, hd⟩
    refine ⟨?_, ?_, ?_⟩
    · intro hmem
      exact hb ((hmemcomps n).1 hmem).1
    · intro hmem
      exact hb ((hmembO n).1 hmem).1
    · intro hmem
      exact hd ((hmemdO n).1 hmem).2

/-- Witness for C7 at `pair({a,b}, {b,c})`: exactly one comparison (for
`b`), `baseOnlyNames == {a}`, `deltaOnlyNames == {c}`, and neither orphan
is compared. -/
theorem processResults_partition_witness :
    (([wComp7].map (fun c => c.name)).count "b" = 1 ∧ "b" ∉ ["a"] ∧ "b" ∉ ["c"]) ∧
    ("a" ∈ ["a"] ∧ "a" ∉ ["c"] ∧ "a" ∉ [wComp7].map (fun c => c.name)) ∧
    ("c" ∈ ["c"] ∧ "c" ∉ ["a"] ∧ "c" ∉ [wComp7].map (fun c => c.name)) := by
  have h := processResults_partition wBase7 wDelta7 [] [wComp7] ["a"] ["c"]
    (by with_unfolding_all rfl)
  refine ⟨(h "b").1 ⟨?_, ?_⟩, ?_, ?_⟩
  · decide
  · decide
  · exact (h "a").2.1 ⟨by decide, by decide⟩
  · exact (h "c").2.2.1 ⟨by decide, by decide⟩

/-!
## Claim C10 — at most one comparison per name, duplicates last-wins
-/

/-- Claim C10: `processResults` produces at most one comparison per
distinct name (the comparison names are duplicate-free), and duplicate
names within one run resolve last-wins — each comparison pairs the last
base result and the last changed result bearing its name. -/
theorem processResults_unique_lastwins (base delta : List BenchmarkResult)
    (lgs : List LogEvent) (comps : List BenchmarkComparison) (bO dO : List String)
    (h : processResults base delta = (lgs, .ok (comps, bO, dO))) :
    (comps.map (fun c => c.name)).Nodup ∧
    ∀ c ∈ comps, lastNamed base c.name = some c.benchBase ∧
      lastNamed delta c.name = some c.benchDelta := by
  have h2 : ((lgs, Except.ok (comps, bO, dO)) :
        List LogEvent × Except ResultError
          (List BenchmarkComparison × List String × List String))
      = ([], Except.ok (pairedComps (dictOf base) (dictOf delta) (namesOf base delta),
          baseOnlyFold (dictOf base) (dictOf delta) (namesOf base delta) [],
          deltaOnlyFold (dictOf base) (dictOf delta) (namesOf base delta) [])) := by
    rw [← h, processResults_eq]
  simp only [Prod.mk.injEq, Except.ok.injEq] at h2
  obtain ⟨-, hc, -, -⟩ := h2
  subst hc
  constructor
  · rw [map_name_pairedComps (dictOf base) (dictOf delta) (lookupA_dictOf_name base)]
    exact (nodup_namesOf base delta).filter _
  · intro c hc
    obtain ⟨m, hm, heq⟩ := List.mem_filterMap.1 hc
    rcases hb : lookupA (dictOf base) m with _ | b
    · rw [hb] at heq
      cases heq
    · rcases hd : lookupA (dictOf delta) m with _ | d
      · rw [hb, hd] at heq
        cases heq
      · rw [hb, hd] at heq
        obtain rfl : compOf b d = c := by simpa using heq
        have hn : (compOf b d).name = m := lookupA_dictOf_name base m b hb
        rw [hn]
        constructor
        · rw [← lookupA_dictOf]
          exact hb
        · rw [← lookupA_dictOf]
          exact hd

/-- Witness for C10: with duplicate `a`s in the base run, exactly one
comparison is produced and it pairs the last results named `a`. -/
theorem processResults_unique_lastwins_witness :
    ([wComp10].map (fun c => c.name)).Nodup ∧
    lastNamed wBase10 wComp10.name = some wComp10.benchBase ∧
    lastNamed wDelta10 wComp10.name = some wComp10.benchDelta := by
  have h := processResults_unique_lastwins wBase10 wDelta10 [] [wComp10] [] []
    (by with_unfolding_all rfl)
  exact ⟨h.1, h.2 wComp10 (List.mem_cons_self wComp10 [])⟩

end CriterionCompare
